import Mathlib

/-!
Verification of the client-side data layer of the project-goliath frontend:
the request pipeline (response envelope, URL placeholder resolution), the
generic entity store, the centralized HTTP error handling, the input
sanitizer, and the server-startup monitor.  Each definition is a shallow
embedding of the corresponding TypeScript function; browser primitives
(DOM parsing, timers, the HTTP transport) are abstracted as explicit
parameters or event sequences.
-/

namespace Goliath

/-! ## Generic string machinery (JavaScript string operations on char lists) -/

/-- The characters matched by JavaScript regular expression \s, which is
also exactly the set removed by String.prototype.trim: tab, line feed,
vertical tab, form feed, carriage return, space, no-break space, ogham
space mark, the en-quad..hair-space range U+2000-U+200A, line separator,
paragraph separator, narrow no-break space, medium mathematical space,
ideographic space, and the zero-width no-break space U+FEFF. -/
def jsWsChars : List Char :=
  ['\t', '\n', '\x0b', '\x0c', '\r', ' ', '\u00A0', '\u1680',
   '\u2000', '\u2001', '\u2002', '\u2003', '\u2004', '\u2005', '\u2006',
   '\u2007', '\u2008', '\u2009', '\u200A',
   '\u2028', '\u2029', '\u202F', '\u205F', '\u3000', '\uFEFF']

/-- The whitespace class used by JavaScript regular expression \s and by
String.prototype.trim. -/
def jsWs (c : Char) : Bool :=
  jsWsChars.contains c

/-- The word-character class of JavaScript regular expressions (\w). -/
def wordChar (c : Char) : Bool :=
  c.isAlpha || c.isDigit || c == '_'

/-- Decides whether `pat` is a leading segment of `s`. -/
def isPre : List Char → List Char → Bool
  | [], _ => true
  | _ :: _, [] => false
  | p :: ps, c :: cs => p == c && isPre ps cs

/-- Decides whether `pat` occurs contiguously anywhere inside `s`. -/
def hasSub (pat : List Char) : List Char → Bool
  | [] => isPre pat []
  | c :: cs => isPre pat (c :: cs) || hasSub pat cs

/-- String-level wrapper: does `s` contain `pat` as a substring
(JavaScript `s.includes(pat)` / a match of the literal pattern)? -/
def containsSub (s pat : String) : Bool :=
  hasSub pat.data s.data

/-- The GetSubstitution expansion JavaScript `String.replace` applies to
the replacement string: a dollar followed by another dollar yields a
literal dollar, dollar-ampersand yields the matched substring, a dollar
followed by the backquote character (code 96) yields the portion of the
subject before the match, and a dollar followed by the straight quote
character (code 39) yields the portion after the match; any other
dollar sequence (including digit references, since a string pattern has
no capture groups) is kept literally. -/
def expandRepl (before matched after : List Char) : List Char → List Char
  | [] => []
  | c :: rest =>
    if c == '$' then
      match rest with
      | [] => ['$']
      | d :: rest' =>
        if d == '$' then '$' :: expandRepl before matched after rest'
        else if d == '&' then matched ++ expandRepl before matched after rest'
        else if d == Char.ofNat 96 then before ++ expandRepl before matched after rest'
        else if d == Char.ofNat 39 then after ++ expandRepl before matched after rest'
        else '$' :: d :: expandRepl before matched after rest'
    else c :: expandRepl before matched after rest

/-- Worker for `replaceFirstCL`: scans for the first occurrence of `pat`,
carrying the consumed prefix (the portion of the subject before the
match, needed by the dollar expansion of the replacement). -/
def replaceFirstAux (pat repl : List Char) : List Char → List Char → List Char
  | _before, [] => []
  | before, c :: cs =>
    if isPre pat (c :: cs) then
      expandRepl before pat ((c :: cs).drop pat.length) repl ++ (c :: cs).drop pat.length
    else c :: replaceFirstAux pat repl (before ++ [c]) cs

/-- JavaScript `s.replace(pat, repl)` with a string pattern: replaces the
first occurrence of `pat` only, applying dollar substitution to the
replacement string; with an empty pattern the (expanded) replacement is
inserted at the front. -/
def replaceFirstCL (s pat repl : List Char) : List Char :=
  if pat.isEmpty then expandRepl [] [] s repl ++ s
  else replaceFirstAux pat repl [] s

/-- String-level wrapper of `replaceFirstCL`. -/
def replaceFirst (s pat repl : String) : String :=
  ⟨replaceFirstCL s.data pat.data repl.data⟩

/-- Worker for `splitSlash`: accumulates the current segment (reversed). -/
def splitSlashGo (cur : List Char) : List Char → List String
  | [] => [⟨cur.reverse⟩]
  | '/' :: cs => ⟨cur.reverse⟩ :: splitSlashGo [] cs
  | c :: cs => splitSlashGo (c :: cur) cs

/-- JavaScript `s.split('/')`. -/
def splitSlash (s : String) : List String :=
  splitSlashGo [] s.data

/-- JavaScript `parts.join('/')`. -/
def joinSlash : List String → String
  | [] => ""
  | [s] => s
  | s :: r :: rest => s ++ "/" ++ joinSlash (r :: rest)

/-- Lower-cased character list of a string (JavaScript case-insensitive
matching is modelled by lowering the haystack). -/
def lowerChars (s : String) : List Char :=
  s.data.map Char.toLower

/-! ## ApiService: response envelope (api.service.ts) -/

/-- HTTP options attached to a request (headers and query parameters as
ordered key-value maps, insertion order as in a JavaScript object). -/
structure HttpOptionsM where
  params : List (String × String)
  headers : List (String × String)
deriving DecidableEq

/-- The `ResponseHeaderModel` of api.service.ts. -/
structure ResponseHeaderModel where
  status : Nat
  statusText : String
  success : Bool
deriving DecidableEq

/-- The standardized `ApiServiceResponse` envelope of api.service.ts,
parameterized by the payload type `T`, the error payload type `E` and the
request body type `B` (all typed `any` in the source). -/
structure ApiServiceResponse (T E B : Type) where
  options : HttpOptionsM
  response : Option T
  responseHeader : ResponseHeaderModel
  id : Nat
  localOnly : Bool
  error : Option E
  reflectOnly : Bool
  requestBody : Option B

/-- The raw transport outcome fed to `generateResponse`: either an
`HttpResponse` (success) or an `HttpErrorResponse` (failure), each carrying
a numeric status and a status text. -/
inductive HttpReply (T E : Type) where
  | success (status : Nat) (statusText : String) (body : T)
  | failure (status : Nat) (statusText : String) (error : E)

/-- Status code of a transport outcome. -/
def HttpReply.status : HttpReply T E → Nat
  | .success s _ _ => s
  | .failure s _ _ => s

/-- Status text of a transport outcome. -/
def HttpReply.statusText : HttpReply T E → String
  | .success _ t _ => t
  | .failure _ t _ => t

/-- Worker for `jsIndexOf`, carrying the current index. -/
def jsIndexOfGo (xs : List Nat) (v : Nat) (i : Int) : Int :=
  match xs with
  | [] => -1
  | x :: rest => if x == v then i else jsIndexOfGo rest v (i + 1)

/-- JavaScript `Array.prototype.indexOf`: index of the first occurrence,
or -1 when absent. -/
def jsIndexOf (xs : List Nat) (v : Nat) : Int :=
  jsIndexOfGo xs v 0

/-- `ApiService.generateResponse`: normalizes a success or failure into the
envelope; `success` is computed as `[200, 201, 300].indexOf(status) >= 0`. -/
def generateResponse (reply : HttpReply T E) (options : HttpOptionsM)
    (requestBody : Option B) : ApiServiceResponse T E B :=
  let body : Option T := match reply with
    | .success _ _ b => some b
    | .failure _ _ _ => none
  let error : Option E := match reply with
    | .success _ _ _ => none
    | .failure _ _ e => some e
  { requestBody := requestBody
    options := options
    response := body
    responseHeader :=
      { status := reply.status
        statusText := reply.statusText
        success := decide (0 ≤ jsIndexOf [200, 201, 300] reply.status) }
    id := 0
    localOnly := false
    reflectOnly := false
    error := error }

/-- The error payload synthesized in the mock branch of `ApiService.get` /
`ApiService.post` when the mock file is missing. -/
structure MockError where
  message : String
deriving DecidableEq

/-- Envelope produced by the mock branch of `ApiService.get` / `post` when
the mock file loads: status 200, success true. -/
def mockSuccessEnvelope (options : HttpOptionsM) (origParams : List (String × String))
    (mockData : T) : ApiServiceResponse T MockError B :=
  { options := { options with params := origParams }
    response := some mockData
    responseHeader := { status := 200, statusText := "OK (from mock file)", success := true }
    id := 0
    localOnly := false
    reflectOnly := false
    error := none
    requestBody := none }

/-- Envelope produced by the mock branch when the mock file is missing:
status 404, success false. -/
def mockMissingEnvelope (options : HttpOptionsM) (origParams : List (String × String)) :
    ApiServiceResponse T MockError B :=
  { options := { options with params := origParams }
    response := none
    responseHeader :=
      { status := 404, statusText := "Not Found (mock file missing)", success := false }
    id := 0
    localOnly := false
    reflectOnly := false
    error := some { message := "Mock file not found" }
    requestBody := none }

/-! ## ApiService: URL placeholder resolution (setParamsInUrl) -/

/-- JavaScript `delete queryParams[k]` on the ordered key-value map. -/
def eraseParam (ps : List (String × String)) (k : String) : List (String × String) :=
  ps.filter (fun p => p.1 != k)

/-- One iteration of the `keys.forEach` loop of `setParamsInUrl`: for key
`kv.1` with value `kv.2`, every URL segment equal to `:key` causes the key
to be deleted from the query parameters, and `:key` is substituted (first
occurrence, as JavaScript `String.replace` with a string pattern) in every
segment. -/
def setParamsStep (acc : List String × List (String × String)) (kv : String × String) :
    List String × List (String × String) :=
  let regxStr := ":" ++ kv.1
  let ps :=
    if acc.1.any (fun ustr => ustr == regxStr) then eraseParam acc.2 kv.1 else acc.2
  (acc.1.map (fun ustr => replaceFirst ustr regxStr kv.2), ps)

/-- `ApiService.setParamsInUrl` before joining: starts from
`endpoint.split('/')` and the query parameters, and runs the `forEach`
loop over the (snapshotted) key-value pairs.  Returns the transformed
segments together with the surviving query parameters. -/
def setParamsInUrlCore (endpoint : String) (queryParams : List (String × String)) :
    List String × List (String × String) :=
  queryParams.foldl setParamsStep (splitSlash endpoint, queryParams)

/-- `ApiService.setParamsInUrl`: the resolved endpoint (`tempurl.join('/')`)
paired with the query parameters left to be transmitted as a query string
(the source mutates `options.params` in place; `ApiService.get` then sends
exactly this mutated object with the HTTP call). -/
def setParamsInUrl (endpoint : String) (queryParams : List (String × String)) :
    String × List (String × String) :=
  let r := setParamsInUrlCore endpoint queryParams
  (joinSlash r.1, r.2)

/-- The effect of the full `forEach` loop of `setParamsInUrl` on one URL
segment: each key token `:key` is substituted in turn (first occurrence,
in snapshot order). -/
def resolveSeg (queryParams : List (String × String)) (seg : String) : String :=
  queryParams.foldl (fun s kv => replaceFirst s (":" ++ kv.1) kv.2) seg

/-- `ApiService.getFullUrl`, with the environment constants `apiUrl` and
`suffix` (not part of src/) abstracted as parameters. -/
def getFullUrl (apiUrl suffixStr : String) (useSuffix : Bool) (endpoint : String) : String :=
  apiUrl ++ (if useSuffix then suffixStr else "") ++ endpoint

/-- The URL and transmitted query parameters produced by `ApiService.get`
before the transport call: placeholder resolution followed by
`getFullUrl`. -/
def getRequestUrlAndParams (apiUrl suffixStr : String) (useSuffix : Bool)
    (endpoint : String) (params : List (String × String)) :
    String × List (String × String) :=
  let r := setParamsInUrl endpoint params
  (getFullUrl apiUrl suffixStr useSuffix r.1, r.2)

/-! ## Entity store (base.store.ts, createBaseStore) -/

/-- The `BaseState` of base.store.ts. -/
structure BaseState (T E B : Type) where
  data : Option T
  response : Option (ApiServiceResponse T E B)
  loading : Bool
  error : Option E
  initialised : Bool

/-- The `BaseStoreConfig` of base.store.ts. -/
structure BaseStoreConfig (T : Type) where
  initialEntityState : Option T
  detailsApiEndpoint : String
  createApiEndpoint : Option String

/-- The initial state constructed by `createBaseStore`. -/
def initialState (cfg : BaseStoreConfig T) : BaseState T E B :=
  { data := cfg.initialEntityState
    response := none
    loading := false
    error := none
    initialised := false }

/-- The synchronous patch applied at the start of both `getRequest` and
`postRequest`, before the API call is issued. -/
def requestStartPatch (cfg : BaseStoreConfig T) (_s : BaseState T E B) : BaseState T E B :=
  { data := cfg.initialEntityState
    response := none
    loading := true
    error := none
    initialised := false }

/-- `handleRequestSuccess` of base.store.ts. -/
def handleRequestSuccess (s : BaseState T E B) (response : ApiServiceResponse T E B) :
    BaseState T E B :=
  { s with
    loading := false
    data := response.response
    response := some response
    error := none
    initialised := true }

/-- `handleRequestError` of base.store.ts.  The source writes
`userError ?? 'An unknown error occurred'`; the rxjs error callback always
receives the thrown value, so `userError` is modelled as present. -/
def handleRequestError (cfg : BaseStoreConfig T) (s : BaseState T E B) (userError : E) :
    BaseState T E B :=
  { s with
    loading := false
    data := cfg.initialEntityState
    response := none
    error := some userError
    initialised := false }

/-- The atomic state transitions of a store instance: the synchronous start
patches of `getRequest` / `postRequest`, their success and error
continuations, and `updateState` / `clearState`. -/
inductive StoreOp (T E B : Type) where
  | getRequestStart
  | postRequestStart
  | requestSuccess (response : ApiServiceResponse T E B)
  | requestError (userError : E)
  | updateState (entityValue : Option T)
  | clearState

/-- Applies one store operation to the current state, exactly as the
corresponding `patchState` call in base.store.ts. -/
def applyOp (cfg : BaseStoreConfig T) (s : BaseState T E B) : StoreOp T E B → BaseState T E B
  | .getRequestStart => requestStartPatch cfg s
  | .postRequestStart => requestStartPatch cfg s
  | .requestSuccess r => handleRequestSuccess s r
  | .requestError e => handleRequestError cfg s e
  | .updateState v => { s with data := v, loading := false, error := none }
  | .clearState =>
      { data := cfg.initialEntityState
        response := none
        loading := false
        error := none
        initialised := false }

/-- Runs a sequence of store operations from the initial state. -/
def runOps (cfg : BaseStoreConfig T) (ops : List (StoreOp T E B)) : BaseState T E B :=
  ops.foldl (applyOp cfg) (initialState cfg)

/-! ## Centralized HTTP error handling (token.interceptor.ts) -/

/-- The `error` payload carried by an `HttpErrorResponse` as inspected by
`handleHttpErrors`: absent, a binary Blob (with the result of decoding its
text as JSON: `some (message?, errorCode?)` when `JSON.parse` succeeds,
`none` when reading or parsing fails), or a structured JSON body. -/
inductive ErrBody where
  | noBody
  | blobBody (decoded : Option (Option String × Option String))
  | jsonBody (message : Option String) (errorCode : Option String)
      (errorDescription : Option String)
deriving DecidableEq

/-- The parts of an `HttpErrorResponse` read by `handleHttpErrors`. -/
structure HttpErrResp where
  status : Nat
  url : Option String
  body : ErrBody
deriving DecidableEq

/-- Is the error payload a Blob (`err.error instanceof Blob`)? -/
def ErrBody.isBlob : ErrBody → Bool
  | .blobBody _ => true
  | _ => false

/-- `err.error?.message`. -/
def errMessage (err : HttpErrResp) : Option String :=
  match err.body with
  | .jsonBody m _ _ => m
  | _ => none

/-- `err.error?.error_description`. -/
def errDescription (err : HttpErrResp) : Option String :=
  match err.body with
  | .jsonBody _ _ d => d
  | _ => none

/-- JavaScript `a || b` on an optional string: falls back when the value is
absent or the empty string (falsy). -/
def jsFalsyOr (o : Option String) (d : String) : String :=
  match o with
  | some s => if s == "" then d else s
  | none => d

/-- `err.url?.includes(pat)` with an absent url counting as no match. -/
def jsUrlIncludes (url : Option String) (pat : String) : Bool :=
  match url with
  | some u => containsSub u pat
  | none => false

/-- The observable side effects emitted by the interceptor error path:
toast notifications (`toastService.showToast`) and session teardown
(`authService.logout`). -/
inductive InterceptorEffect where
  | showToast (severity summary detail position : String)
  | logout
deriving DecidableEq

/-- `handleBlobError`: reads the Blob as text and tries to parse it as
JSON; on success it toasts `message ?? errorCode ?? 'An unknown error
occurred.'` and propagates the error with the parsed JSON body; on any
read or parse failure the original error is propagated with no toast. -/
def handleBlobError (err : HttpErrResp) : List InterceptorEffect × HttpErrResp :=
  match err.body with
  | .blobBody (some (m, c)) =>
      ([.showToast "error" "Error" (m.getD (c.getD "An unknown error occurred.")) "bottom-center"],
       { err with body := .jsonBody m c none })
  | _ => ([], err)

/-- `handleHttpErrors` of token.interceptor.ts: dispatches on the error,
returning the emitted side effects and the propagated error. -/
def handleHttpErrors (err : HttpErrResp) : List InterceptorEffect × HttpErrResp :=
  if err.body.isBlob then handleBlobError err
  else if err.status == 0 then ([], err)
  else if err.status == 400 then
    ([.showToast "error" "Error" (jsFalsyOr (errMessage err) "An unexpected error occurred.")
        "bottom-center"], err)
  else if err.status == 401 then
    ([.showToast "error" "Error"
        ((errMessage err).getD "Unauthorized Access. Please log in again.") "bottom-center",
      .logout], err)
  else if [400, 402, 404, 409, 500].contains err.status then
    let msg :=
      if err.status == 404 then "Sorry, the requested resource was not found."
      else (errMessage err).getD ((errDescription err).getD "An unexpected error occurred.")
    if !(jsUrlIncludes err.url "/dummyapi") then
      ([.showToast "error" "Error" msg "bottom-center"], err)
    else ([], err)
  else ([], err)

/-! ## Sanitizer (form-sanitization.service.ts) -/

/-- Scans every position of a string (with the preceding character, for
word boundaries): true when the position predicate holds somewhere.  This
models `RegExp.test`: does the pattern match at some position? -/
def scanPositions (p : Option Char → List Char → Bool) : Option Char → List Char → Bool
  | prev, [] => p prev []
  | prev, c :: cs => p prev (c :: cs) || scanPositions p (some c) cs

/-- Tests a case-insensitive pattern (a /gi regex) against a string by
scanning the lower-cased haystack. -/
def testLower (p : Option Char → List Char → Bool) (s : String) : Bool :=
  scanPositions p none (lowerChars s)

/-- Tests a case-sensitive pattern against the raw string. -/
def testRaw (p : Option Char → List Char → Bool) (s : String) : Bool :=
  scanPositions p none s.data

/-- Word boundary before a position: holds at the string start or after a
non-word character (the first pattern character is a word character). -/
def boundaryBefore : Option Char → Bool
  | none => true
  | some c => !(wordChar c)

/-- Word boundary after a position: holds at the string end or before a
non-word character (the last pattern character is a word character). -/
def boundaryAfterChars : List Char → Bool
  | [] => true
  | c :: _ => !(wordChar c)

/-- A call-like pattern `name\s*\(` at the current position. -/
def callAt (name : List Char) (r : List Char) : Bool :=
  isPre name r &&
    (match (r.drop name.length).dropWhile jsWs with
     | '(' :: _ => true
     | _ => false)

/-- The patterns `href+\s*=` and `src+\s*=` at the current position:
literal stem, then one or more repetitions of `rep`, then optional
whitespace, then an equals sign. -/
def plusThenEq (stem : List Char) (rep : Char) (r : List Char) : Bool :=
  isPre stem r &&
    (match r.drop stem.length with
     | c :: rest =>
       c == rep &&
         (match (rest.dropWhile (· == rep)).dropWhile jsWs with
          | '=' :: _ => true
          | _ => false)
     | [] => false)

/-- Character list of the closing tag matched by the second script
pattern. -/
def scriptCloseChars : List Char := "</script>".data

/-- The starred group `(?:(?!<\/script>)<[^<])*<\/script>` of the second
script pattern: repeatedly consume a left angle plus one non-angle
character while not at the closing tag, then require the closing tag. -/
def scriptStarLoop (r : List Char) : Bool :=
  if isPre scriptCloseChars r then true
  else
    match r with
    | '<' :: d :: rest => !(d == '<') && scriptStarLoop rest
    | _ => false

/-- The pattern `<script\b[^<](?:(?!<\/script>)<[^<])*<\/script>` at the
current position.  After `<script` the word boundary forces the next
character (which `[^<]` also requires) to be a non-word character. -/
def scriptBlockAt (r : List Char) : Bool :=
  isPre "<script".data r &&
    (match r.drop 7 with
     | c :: rest => !(c == '<') && !(wordChar c) && scriptStarLoop rest
     | [] => false)

/-- The pattern `<[^>][a-z0-9][^>]>` at the current position (on the
lower-cased haystack, so `[a-z0-9]` with the /i flag becomes letter or
digit). -/
def angleFourAt : List Char → Bool
  | '<' :: c1 :: c2 :: c3 :: '>' :: _ =>
      !(c1 == '>') && (c2.isAlpha || c2.isDigit) && !(c3 == '>')
  | _ => false

/-- The lookahead body `[a-zA-Z]+\s+[a-zA-Z]+>` of the tag-like pattern:
letters, whitespace, letters, then a closing angle (all character classes
are pairwise disjoint, so greedy matching is exact). -/
def lookTwoWords (r : List Char) : Bool :=
  match r with
  | c :: rest =>
    c.isAlpha &&
      (match rest.dropWhile Char.isAlpha with
       | w :: r2 =>
         jsWs w &&
           (match r2.dropWhile jsWs with
            | a :: r3 =>
              a.isAlpha &&
                (match r3.dropWhile Char.isAlpha with
                 | '>' :: _ => true
                 | _ => false)
            | [] => false)
       | [] => false)
  | [] => false

/-- The taken optional group plus closing of the tag-like pattern after
the tag name: `(\s+[^<>])>\s` — one or more whitespace characters, a
single character that is not an angle bracket, the closing angle, and a
whitespace character.  At least one whitespace character is consumed
before checking the rest; the quantifier backtracks, hence the
disjunction over the whitespace run length. -/
def tagGroupAfterWs (r : List Char) : Bool :=
  match r with
  | w :: rest =>
    jsWs w &&
      ((match rest with
        | c :: '>' :: w2 :: _ => !(c == '<') && !(c == '>') && jsWs w2
        | _ => false) ||
       tagGroupAfterWs rest)
  | [] => false

/-- The pattern `<\s*(?![a-zA-Z]+\s+[a-zA-Z]+>)(\/)?[a-zA-Z0-9]+(\s+[^<>])?>\s`
(the only one without the /i flag) at the current position. -/
def tagLikeAt (r : List Char) : Bool :=
  match r with
  | '<' :: rest =>
    let r1 := rest.dropWhile jsWs
    !(lookTwoWords r1) &&
      (let r2 := match r1 with
                 | '/' :: t => t
                 | _ => r1
       match r2 with
       | c :: _ =>
         (c.isAlpha || c.isDigit) &&
           (let r3 := r2.dropWhile (fun d => d.isAlpha || d.isDigit)
            (match r3 with
             | '>' :: w :: _ => jsWs w
             | _ => false) ||
            tagGroupAfterWs r3)
       | [] => false)
  | _ => false

/-- The pattern `function\s*(\w+)?\s*\([^)]\)\s\{[\s\S]*?\}` at the current
position: keyword, optional name, a parenthesized single non-parenthesis
character, one whitespace character, an opening brace, and eventually a
closing brace. -/
def functionDefAt (r : List Char) : Bool :=
  isPre "function".data r &&
    (match (((r.drop 8).dropWhile jsWs).dropWhile wordChar).dropWhile jsWs with
     | '(' :: c :: ')' :: w :: '{' :: rest =>
         !(c == ')') && jsWs w && rest.any (· == '}')
     | _ => false)

/-- The pattern `\bwindow\s*\.\s*location\b` at the current position. -/
def windowLocationAt (prev : Option Char) (r : List Char) : Bool :=
  boundaryBefore prev &&
    isPre "window".data r &&
    (match (r.drop 6).dropWhile jsWs with
     | '.' :: r2 =>
       isPre "location".data (r2.dropWhile jsWs) &&
         boundaryAfterChars ((r2.dropWhile jsWs).drop 8)
     | _ => false)

/-- First alternative of the storage patterns: `window\s*\.\slocation`
(one mandatory whitespace character after the dot). -/
def altWindowDotLocation (r : List Char) : Option (List Char) :=
  if isPre "window".data r then
    match (r.drop 6).dropWhile jsWs with
    | '.' :: w :: r2 =>
      if jsWs w && isPre "location".data r2 then some (r2.drop 8) else none
    | _ => none
  else none

/-- Second alternative: `window\s*\.\slocalStorage\s\.\s<item>` with single
mandatory whitespace characters around the second dot. -/
def altWindowStorage (item : List Char) (r : List Char) : Option (List Char) :=
  if isPre "window".data r then
    match (r.drop 6).dropWhile jsWs with
    | '.' :: w :: r2 =>
      if jsWs w && isPre "localstorage".data r2 then
        match r2.drop 12 with
        | w2 :: r3 =>
          if jsWs w2 then
            match r3 with
            | '.' :: w3 :: r4 =>
              if jsWs w3 && isPre item r4 then some (r4.drop item.length) else none
            | _ => none
          else none
        | [] => none
      else none
    | _ => none
  else none

/-- Third alternative: `localStorage\s\.\s*<item>` (one mandatory
whitespace character before the dot, optional whitespace after). -/
def altLocalStorage (item : List Char) (r : List Char) : Option (List Char) :=
  if isPre "localstorage".data r then
    match r.drop 12 with
    | w :: r2 =>
      if jsWs w then
        match r2 with
        | '.' :: r3 =>
          if isPre item (r3.dropWhile jsWs) then
            some ((r3.dropWhile jsWs).drop item.length)
          else none
        | _ => none
      else none
    | [] => none
  else none

/-- Closes an alternative with the trailing word boundary. -/
def altOk (o : Option (List Char)) : Bool :=
  match o with
  | some rest => boundaryAfterChars rest
  | none => false

/-- The patterns `\b(window\s*\.\slocation|window\s*\.\slocalStorage\s\.\s<item>|localStorage\s\.\s*<item>)\b`
(instantiated with setItem, deleteItem and getItem) at the current
position; regex alternation backtracks, so each alternative is tried
against the trailing boundary. -/
def storageAt (item : List Char) (prev : Option Char) (r : List Char) : Bool :=
  boundaryBefore prev &&
    (altOk (altWindowDotLocation r) ||
     altOk (altWindowStorage item r) ||
     altOk (altLocalStorage item r))

/-- The `dangerousPatterns` array of `sanitizeInput`, in source order, each
entry as a tester `String → Bool` (the /gi patterns match on the
lower-cased haystack; the tag-like pattern has no flags and matches on the
raw string). -/
def dangerousPatterns : List (String → Bool) :=
  [ fun s => testLower (fun _ r => isPre "<script>".data r) s
  , fun s => testLower (fun _ r => scriptBlockAt r) s
  , fun s => testLower (fun _ r => isPre "javascript:".data r) s
  , fun s => testLower (fun _ r => plusThenEq "hre".data 'f' r) s
  , fun s => testLower (fun _ r => plusThenEq "sr".data 'c' r) s
  , fun s => testLower (fun _ r => callAt "eval".data r) s
  , fun s => testLower (fun _ r => callAt "settimeout".data r) s
  , fun s => testLower (fun _ r => callAt "alert".data r) s
  , fun s => testLower (fun _ r => callAt "setinterval".data r) s
  , fun s => testLower (fun _ r => callAt "document.write".data r) s
  , fun s => testLower (fun _ r => angleFourAt r) s
  , fun s => testRaw (fun _ r => tagLikeAt r) s
  , fun s => testLower (fun _ r => functionDefAt r) s
  , fun s => testLower (fun prev r => windowLocationAt prev r) s
  , fun s => testLower (fun prev r => storageAt "setitem".data prev r) s
  , fun s => testLower (fun prev r => storageAt "deleteitem".data prev r) s
  , fun s => testLower (fun prev r => storageAt "getitem".data prev r) s
  , fun s => testLower (fun _ r => callAt "fetch".data r) s ]

/-- The browser DOM parser, abstracted: whether
`new DOMParser().parseFromString(input, 'text/html')` yields a body with
at least one element node, and the body's `textContent`. -/
structure DomOracle where
  hasHtmlElementNodes : String → Bool
  bodyTextContent : String → String

/-- The result shape of `sanitizeInput`. -/
structure SanitizeResult where
  sanitized : String
  error : Bool
deriving DecidableEq

/-- `FormSanitizationService.sanitizeInput`: empty or all-whitespace input
(JavaScript `!input || input.trim() === ''`) passes with the empty string;
otherwise the error flag is the disjunction of the element-node check and,
for each dangerous pattern, a test against the raw input and (when the
extracted text content is non-empty) against the text content.  The
`sanitized` field is the input itself. -/
def sanitizeInput (dom : DomOracle) (input : String) : SanitizeResult :=
  if input == "" || input.data.all jsWs then { sanitized := "", error := false }
  else
    let textContent := dom.bodyTextContent input
    { sanitized := input
      error :=
        dom.hasHtmlElementNodes input ||
          dangerousPatterns.any (fun pat =>
            pat input || (!(textContent == "") && pat textContent)) }

/-! ## Startup monitor (server-startup.service.ts) -/

/-- The fields of the failure object inspected by `onRequestEnd`. -/
structure MonErr where
  status : Option Nat
  message : Option String
  name : Option String
deriving DecidableEq

/-- The classification in `onRequestEnd`:
`error?.status === 0 || error?.message?.toLowerCase().includes('timeout')
|| error?.name === 'TimeoutError'`. -/
def isStartupError (error : Option MonErr) : Bool :=
  match error with
  | none => false
  | some e =>
    e.status == some 0 ||
      (match e.message with
       | some m => containsSub ⟨m.data.map Char.toLower⟩ "timeout"
       | none => false) ||
      e.name == some "TimeoutError"

/-- The state of `ServerStartupService`: the modal signal and the pending
request map (request id to start time, insertion order). -/
structure MonState where
  showStartupModal : Bool
  pendingRequests : List (String × Nat)
deriving DecidableEq

/-- JavaScript `Map.set`. -/
def mapSet (m : List (String × Nat)) (k : String) (v : Nat) : List (String × Nat) :=
  if m.any (fun p => p.1 == k) then
    m.map (fun p => if p.1 == k then (k, v) else p)
  else m ++ [(k, v)]

/-- JavaScript `Map.delete`. -/
def mapDelete (m : List (String × Nat)) (k : String) : List (String × Nat) :=
  m.filter (fun p => p.1 != k)

/-- The events acting on the monitor state, in the order the event loop
runs them: the body of `onRequestStart` (which also schedules a
`startupCheck` for 5000 ms later), the body of `onRequestEnd` (which,
when no error is classified and no request remains pending, schedules a
`debounceHide` for 500 ms later), the two timer callbacks, and the manual
`hideModal`. -/
inductive MonAct where
  | requestStart (id : String) (now : Nat)
  | requestEnd (id : String) (error : Option MonErr)
  | startupCheck (id : String)
  | debounceHide
  | hideModal

/-- One monitor transition, exactly as server-startup.service.ts. -/
def monStep (s : MonState) : MonAct → MonState
  | .requestStart id now =>
      { s with pendingRequests := mapSet s.pendingRequests id now }
  | .requestEnd id error =>
      let p := mapDelete s.pendingRequests id
      if isStartupError error then { showStartupModal := true, pendingRequests := p }
      else { s with pendingRequests := p }
  | .startupCheck id =>
      if s.pendingRequests.any (fun p => p.1 == id) then
        { s with showStartupModal := true }
      else s
  | .debounceHide =>
      if s.pendingRequests.isEmpty then { s with showStartupModal := false } else s
  | .hideModal => { s with showStartupModal := false }

/-- Runs a sequence of monitor events. -/
def monRun (s : MonState) (acts : List MonAct) : MonState :=
  acts.foldl monStep s

/-- All intermediate monitor states along a sequence of events. -/
def monStates (s : MonState) (acts : List MonAct) : List MonState :=
  List.scanl monStep s acts

/-- The monitor state at service creation. -/
def monInit : MonState := { showStartupModal := false, pendingRequests := [] }

/-- The timeline of a single tracked request started at `t0` and removed at
`t1 < t0 + 5000`: the start (scheduling the 5000 ms check), the end
(scheduling the 500 ms debounce, as no request remains pending and the
completion carries no startup-classified error), and the two timer
callbacks in the order the event loop fires them. -/
def singleRequestTrace (id : String) (t0 t1 : Nat) (error : Option MonErr) : List MonAct :=
  if t1 + 500 < t0 + 5000 then
    [.requestStart id t0, .requestEnd id error, .debounceHide, .startupCheck id]
  else
    [.requestStart id t0, .requestEnd id error, .startupCheck id, .debounceHide]

/-- The two `onRequestEnd` invocations the interceptor performs for one
failing request: `catchError` calls `onRequestEnd(requestId, err)` and the
`finalize` hook then calls `onRequestEnd(requestId)` with no error
(token.interceptor.ts, authInterceptor). -/
def interceptorFailureEnds (requestId : String) (error : MonErr) : List MonAct :=
  [.requestEnd requestId (some error), .requestEnd requestId none]

/-! ## General lemmas about the string machinery -/

theorem isPre_append_self (p t : List Char) : isPre p (p ++ t) = true := by
  induction p with
  | nil => rfl
  | cons c ps ih => simp [isPre, ih]

theorem isPre_exists {p s : List Char} (h : isPre p s = true) : ∃ t, s = p ++ t := by
  induction p generalizing s with
  | nil => exact ⟨s, rfl⟩
  | cons c ps ih =>
    cases s with
    | nil => simp [isPre] at h
    | cons d ds =>
      simp only [isPre, Bool.and_eq_true, beq_iff_eq] at h
      obtain ⟨t, ht⟩ := ih h.2
      exact ⟨t, by simp [h.1, ht]⟩

theorem isPre_nil_eq {p : List Char} (h : isPre p [] = true) : p = [] := by
  cases p with
  | nil => rfl
  | cons c ps => simp [isPre] at h

theorem isPre_append_right {p s : List Char} (t : List Char) (h : isPre p s = true) :
    isPre p (s ++ t) = true := by
  induction p generalizing s with
  | nil => rfl
  | cons c ps ih =>
    cases s with
    | nil => simp [isPre] at h
    | cons d ds =>
      simp only [isPre, Bool.and_eq_true] at h ⊢
      exact ⟨h.1, ih h.2⟩

theorem hasSub_of_isPre {pat s : List Char} (h : isPre pat s = true) :
    hasSub pat s = true := by
  cases s with
  | nil => simpa [hasSub] using h
  | cons c cs => simp [hasSub, h]

theorem hasSub_cons {pat cs : List Char} (c : Char) (h : hasSub pat cs = true) :
    hasSub pat (c :: cs) = true := by
  simp [hasSub, h]

theorem hasSub_append_left {pat s : List Char} (a : List Char) (h : hasSub pat s = true) :
    hasSub pat (a ++ s) = true := by
  induction a with
  | nil => simpa using h
  | cons c a' ih => exact hasSub_cons c ih

theorem hasSub_append_right {pat s : List Char} (t : List Char) (h : hasSub pat s = true) :
    hasSub pat (s ++ t) = true := by
  induction s with
  | nil =>
    have hp : pat = [] := isPre_nil_eq (by simpa [hasSub] using h)
    subst hp
    cases t with
    | nil => rfl
    | cons c cs => simp [hasSub, isPre]
  | cons c cs ih =>
    simp only [hasSub, Bool.or_eq_true] at h
    rcases h with h | h
    · exact hasSub_of_isPre (by simpa using isPre_append_right t h)
    · exact hasSub_cons c (ih h)

theorem hasSub_parts (pat a b : List Char) : hasSub pat (a ++ (pat ++ b)) = true :=
  hasSub_append_left a (hasSub_of_isPre (isPre_append_self pat b))

theorem hasSub_exists {pat s : List Char} (h : hasSub pat s = true) :
    ∃ a b, s = a ++ pat ++ b := by
  induction s with
  | nil =>
    have hp : pat = [] := isPre_nil_eq (by simpa [hasSub] using h)
    exact ⟨[], [], by simp [hp]⟩
  | cons c cs ih =>
    simp only [hasSub, Bool.or_eq_true] at h
    rcases h with h | h
    · obtain ⟨t, ht⟩ := isPre_exists h
      exact ⟨[], t, by simp [ht]⟩
    · obtain ⟨a, b, hab⟩ := ih h
      exact ⟨c :: a, b, by simp [hab]⟩

theorem hasSub_eq_false_of_no_colon {k s : List Char}
    (h : s.all (fun c => c != ':') = true) : hasSub (':' :: k) s = false := by
  induction s with
  | nil => rfl
  | cons c cs ih =>
    simp only [List.all_cons, Bool.and_eq_true, bne_iff_ne] at h
    have h1 : isPre (':' :: k) (c :: cs) = false := by
      simp [isPre, Bool.and_eq_false_iff]
      intro hc
      exact absurd hc.symm h.1
    simp [hasSub, h1, ih (by simpa using h.2)]

theorem expandRepl_no_dollar (before matched after : List Char) :
    ∀ repl : List Char, repl.all (fun c => c != '$') = true →
      expandRepl before matched after repl = repl := by
  intro repl
  induction repl with
  | nil => intro _; rfl
  | cons c rest ih =>
    intro h
    simp only [List.all_cons, Bool.and_eq_true] at h
    have hc : (c == '$') = false := by
      cases hcc : c == '$'
      · rfl
      · exact absurd h.1 (by simp [bne, hcc])
    rw [expandRepl.eq_def]
    simp [hc, ih h.2]

theorem replaceFirstAux_of_not_sub (pat repl : List Char) :
    ∀ (s before : List Char), hasSub pat s = false →
      replaceFirstAux pat repl before s = s := by
  intro s
  induction s with
  | nil =>
    intro before _
    rfl
  | cons c cs ih =>
    intro before h
    simp only [hasSub, Bool.or_eq_false_iff] at h
    simp [replaceFirstAux, h.1, ih (before ++ [c]) h.2]

theorem replaceFirstCL_of_not_sub {s pat repl : List Char} (h : hasSub pat s = false) :
    replaceFirstCL s pat repl = s := by
  have hpat : pat ≠ [] := by
    intro hp
    subst hp
    cases s <;> simp [hasSub, isPre] at h
  simp [replaceFirstCL, List.isEmpty_eq_false.mpr hpat,
    replaceFirstAux_of_not_sub pat repl s [] h]

theorem replaceFirstCL_self_no_dollar (pat repl : List Char) (h : pat ≠ [])
    (hd : repl.all (fun c => c != '$') = true) :
    replaceFirstCL pat pat repl = repl := by
  cases pat with
  | nil => exact absurd rfl h
  | cons c ps =>
    have hp : isPre (c :: ps) (c :: ps) = true := by
      simpa using isPre_append_self (c :: ps) []
    simp [replaceFirstCL, replaceFirstAux, hp, List.drop_length,
      expandRepl_no_dollar [] (c :: ps) [] repl hd]

theorem string_data_append (a b : String) : (a ++ b).data = a.data ++ b.data := rfl

theorem token_data (k : String) : (":" ++ k).data = ':' :: k.data := rfl

theorem token_inj {a b : String} (h : (":" ++ a) = (":" ++ b)) : a = b := by
  have hd : ':' :: a.data = ':' :: b.data := by
    rw [← token_data, ← token_data, h]
  cases a with
  | mk la =>
    cases b with
    | mk lb =>
      have h2 : la = lb := by simpa using List.cons_injective hd
      rw [h2]

theorem replaceFirst_of_not_contains {s pat repl : String}
    (h : containsSub s pat = false) : replaceFirst s pat repl = s := by
  unfold replaceFirst
  rw [replaceFirstCL_of_not_sub h]

theorem replaceFirst_token_self (k repl : String)
    (hd : repl.data.all (fun c => c != '$') = true) :
    replaceFirst (":" ++ k) (":" ++ k) repl = repl := by
  unfold replaceFirst
  rw [replaceFirstCL_self_no_dollar _ _ (by simp [token_data]) hd]

theorem replaceFirst_no_colon {s : String} {k repl : String}
    (h : s.data.all (fun c => c != ':') = true) :
    replaceFirst s (":" ++ k) repl = s :=
  replaceFirst_of_not_contains (by
    unfold containsSub
    rw [token_data]
    exact hasSub_eq_false_of_no_colon h)

theorem joinSlash_contains_of_mem {parts : List String} {v : String} (h : v ∈ parts) :
    containsSub (joinSlash parts) v = true := by
  induction parts with
  | nil => cases h
  | cons s rest ih =>
    cases rest with
    | nil =>
      rcases List.mem_singleton.mp h with rfl
      unfold containsSub joinSlash
      exact hasSub_of_isPre (by simpa using isPre_append_self v.data [])
    | cons r rest' =>
      rcases List.mem_cons.mp h with rfl | hmem
      · unfold containsSub joinSlash
        rw [string_data_append, string_data_append, List.append_assoc]
        exact hasSub_append_right _ (hasSub_of_isPre (by simpa using isPre_append_self v.data []))
      · have h2 : hasSub v.data (joinSlash (r :: rest')).data = true := ih hmem
        unfold containsSub joinSlash
        rw [string_data_append, string_data_append]
        exact hasSub_append_left _ h2

theorem containsSub_append_left {s v : String} (a : String) (h : containsSub s v = true) :
    containsSub (a ++ s) v = true := by
  unfold containsSub at h ⊢
  rw [string_data_append]
  exact hasSub_append_left _ h

/-! ## C1: envelope success flag -/

/-- C1: for every pipeline result, mocked or live, success or failure, the
envelope's responseHeader.success is true if and only if the numeric
status is 200, 201, or 300.  Covered constructions: `generateResponse`
(the live path, both for `HttpResponse` and for `HttpErrorResponse`), and
the envelopes built by the mock branch of `ApiService.get` / `post` (mock
file present: status 200, and mock file missing: status 404). -/
theorem claim_C1_envelope_success_iff_status :
    ∀ (T E B : Type) (reply : HttpReply T E) (options : HttpOptionsM)
      (requestBody : Option B) (origParams : List (String × String)) (mockData : T),
      ((generateResponse reply options requestBody).responseHeader.success = true ↔
        (reply.status = 200 ∨ reply.status = 201 ∨ reply.status = 300)) ∧
      ((mockSuccessEnvelope options origParams mockData :
          ApiServiceResponse T MockError B).responseHeader.success = true ↔
        ((mockSuccessEnvelope options origParams mockData :
            ApiServiceResponse T MockError B).responseHeader.status = 200 ∨
         (mockSuccessEnvelope options origParams mockData :
            ApiServiceResponse T MockError B).responseHeader.status = 201 ∨
         (mockSuccessEnvelope options origParams mockData :
            ApiServiceResponse T MockError B).responseHeader.status = 300)) ∧
      ((mockMissingEnvelope options origParams :
          ApiServiceResponse T MockError B).responseHeader.success = true ↔
        ((mockMissingEnvelope options origParams :
            ApiServiceResponse T MockError B).responseHeader.status = 200 ∨
         (mockMissingEnvelope options origParams :
            ApiServiceResponse T MockError B).responseHeader.status = 201 ∨
         (mockMissingEnvelope options origParams :
            ApiServiceResponse T MockError B).responseHeader.status = 300)) := by
  intro T E B reply options requestBody origParams mockData
  refine ⟨?_, ?_, ?_⟩
  · simp only [generateResponse, jsIndexOf, jsIndexOfGo]
    split_ifs with h1 h2 h3
    all_goals simp_all [beq_iff_eq]
    all_goals omega
  · simp [mockSuccessEnvelope]
  · simp [mockMissingEnvelope]

/-! ## C3, C4, C5: entity store state machine -/

theorem applyOp_not_loading_and_initialised (cfg : BaseStoreConfig T)
    (s : BaseState T E B) (op : StoreOp T E B) :
    ((applyOp cfg s op).loading && (applyOp cfg s op).initialised) = false := by
  cases op <;>
    simp [applyOp, requestStartPatch, handleRequestSuccess, handleRequestError]

theorem foldl_applyOp_not_loading_and_initialised (cfg : BaseStoreConfig T)
    (ops : List (StoreOp T E B)) (s : BaseState T E B)
    (h : (s.loading && s.initialised) = false) :
    ((ops.foldl (applyOp cfg) s).loading && (ops.foldl (applyOp cfg) s).initialised) = false := by
  induction ops generalizing s with
  | nil => simpa using h
  | cons op rest ih => simpa using ih _ (applyOp_not_loading_and_initialised cfg s op)

/-- C3: for every entity store created by createBaseStore, starting from
the initial state, after any sequence of operations (the synchronous
start patches of getRequest/postRequest, their success/error
continuations, updateState, clearState) the state never has loading and
initialised both true. -/
theorem claim_C3_never_loading_and_initialised :
    ∀ (T E B : Type) (cfg : BaseStoreConfig T) (ops : List (StoreOp T E B)),
      ((runOps cfg ops).loading && (runOps cfg ops).initialised) = false := by
  intro T E B cfg ops
  exact foldl_applyOp_not_loading_and_initialised cfg ops (initialState cfg) rfl

/-- C4: immediately when getRequest or postRequest is invoked (the
synchronous patchState before the call resolves), the state has data equal
to the configured initial value, error null, response null, loading true,
and initialised false — from any prior state. -/
theorem claim_C4_request_start_state :
    ∀ (T E B : Type) (cfg : BaseStoreConfig T) (s : BaseState T E B),
      applyOp cfg s StoreOp.getRequestStart =
        { data := cfg.initialEntityState, response := none, loading := true,
          error := none, initialised := false } ∧
      applyOp cfg s StoreOp.postRequestStart =
        { data := cfg.initialEntityState, response := none, loading := true,
          error := none, initialised := false } := by
  intro T E B cfg s
  exact ⟨rfl, rfl⟩

/-- C5: initialised becomes true only via the success continuation of a
getRequest/postRequest — every operation other than a requestSuccess
leaves initialised false when it was false — and every failing call
leaves the store with initialised false, data equal to the configured
initial value, response null, and error set to the failure. -/
theorem claim_C5_initialised_only_on_success :
    (∀ (T E B : Type) (cfg : BaseStoreConfig T) (s : BaseState T E B) (op : StoreOp T E B),
      s.initialised = false → (∀ r, op ≠ StoreOp.requestSuccess r) →
      (applyOp cfg s op).initialised = false) ∧
    (∀ (T E B : Type) (cfg : BaseStoreConfig T) (s : BaseState T E B) (e : E),
      applyOp cfg s (StoreOp.requestError e) =
        { data := cfg.initialEntityState, response := none, loading := false,
          error := some e, initialised := false }) := by
  constructor
  · intro T E B cfg s op h1 h2
    cases op with
    | getRequestStart => rfl
    | postRequestStart => rfl
    | requestSuccess r => exact absurd rfl (h2 r)
    | requestError e => rfl
    | updateState v => exact h1
    | clearState => rfl
  · intro T E B cfg s e
    rfl

/-- Witness for C5 at a concrete store over Nat payloads. -/
theorem claim_C5_initialised_only_on_success_witness :
    (applyOp (⟨some 0, "/e", none⟩ : BaseStoreConfig Nat)
        (initialState ⟨some 0, "/e", none⟩ : BaseState Nat Nat Nat)
        (StoreOp.updateState (some 3))).initialised = false ∧
    applyOp (⟨some 0, "/e", none⟩ : BaseStoreConfig Nat)
        (initialState ⟨some 0, "/e", none⟩ : BaseState Nat Nat Nat)
        (StoreOp.requestError 7) =
      { data := some 0, response := none, loading := false, error := some 7,
        initialised := false } :=
  ⟨claim_C5_initialised_only_on_success.1 Nat Nat Nat ⟨some 0, "/e", none⟩
      (initialState ⟨some 0, "/e", none⟩) (StoreOp.updateState (some 3)) rfl
      (fun _r h => StoreOp.noConfusion h),
   claim_C5_initialised_only_on_success.2 Nat Nat Nat ⟨some 0, "/e", none⟩
      (initialState ⟨some 0, "/e", none⟩) 7⟩

/-! ## C6: error classifier side effects -/

/-- C6 counterexample: a transport failure with status 401 whose error
body is a Blob that cannot be decoded is routed through handleBlobError,
which emits no toast and no logout — so the claim that a 401 failure
always produces both a user notification and a logout side effect is
false on the code. -/
theorem claim_C6_counterexample :
    handleHttpErrors { status := 401, url := none, body := ErrBody.blobBody none } =
      ([], { status := 401, url := none, body := ErrBody.blobBody none }) := rfl

/-- C6 (amended): for every transport failure whose error body is not a
Blob, a failure with status 401 produces exactly a user notification
followed by a logout side effect, and a failure with status 0 produces no
side effect at all and is propagated unchanged. -/
theorem claim_C6_amended_status_effects :
    ∀ err : HttpErrResp, err.body.isBlob = false →
      (err.status = 401 →
        handleHttpErrors err =
          ([InterceptorEffect.showToast "error" "Error"
              ((errMessage err).getD "Unauthorized Access. Please log in again.")
              "bottom-center",
            InterceptorEffect.logout], err)) ∧
      (err.status = 0 → handleHttpErrors err = ([], err)) := by
  intro err hb
  constructor
  · intro h4
    simp [handleHttpErrors, hb, h4]
  · intro h0
    simp [handleHttpErrors, hb, h0]

/-- Witness for C6 (amended) at concrete 401 and 0 failures. -/
theorem claim_C6_amended_status_effects_witness :
    (handleHttpErrors { status := 401, url := none, body := ErrBody.noBody } =
      ([InterceptorEffect.showToast "error" "Error"
          "Unauthorized Access. Please log in again." "bottom-center",
        InterceptorEffect.logout],
       { status := 401, url := none, body := ErrBody.noBody })) ∧
    (handleHttpErrors { status := 0, url := none, body := ErrBody.noBody } =
      ([], { status := 0, url := none, body := ErrBody.noBody })) :=
  ⟨(claim_C6_amended_status_effects ⟨401, none, ErrBody.noBody⟩ rfl).1 rfl,
   (claim_C6_amended_status_effects ⟨0, none, ErrBody.noBody⟩ rfl).2 rfl⟩

/-! ## C8: sanitizer never rewrites (amended) -/

/-- C8 counterexample: a whitespace-only (non-empty) input is returned as
the empty string, not unchanged, so sanitizeInput does not always return
the input itself in the sanitized field. -/
theorem claim_C8_counterexample :
    (sanitizeInput ⟨fun _ => false, fun _ => ""⟩ " ").sanitized ≠ " " := by decide

/-- C8 (amended): sanitizeInput returns the input itself unchanged in the
sanitized field — it only classifies, never rewrites — except when the
input consists entirely of whitespace (in particular when it is empty),
in which case the sanitized field is the empty string. -/
theorem claim_C8_amended_sanitized_field :
    ∀ (dom : DomOracle) (input : String),
      (sanitizeInput dom input).sanitized =
        (if input.data.all jsWs = true then "" else input) := by
  intro dom input
  cases hall : input.data.all jsWs with
  | true => simp [sanitizeInput, hall]
  | false =>
    have hne : (input == "") = false := by
      cases hbe : input == ""
      · rfl
      · have : input = "" := by simpa using hbe
        subst this
        simp at hall
    simp [sanitizeInput, hne, hall]

/-! ## C9, C10: startup monitor -/

/-- C9: for the startup monitor, a single tracked request that is removed
(completing with no connection-error/timeout classification) strictly
before the 5000 ms threshold never turns the startup-modal flag on at any
point of the timeline, while a request still pending when the scheduled
5000 ms check fires turns the flag on. -/
theorem claim_C9_startup_threshold :
    ∀ (id : String) (t0 t1 : Nat) (error : Option MonErr),
      t0 ≤ t1 → t1 < t0 + 5000 → isStartupError error = false →
      ((∀ s ∈ monStates monInit (singleRequestTrace id t0 t1 error),
          s.showStartupModal = false) ∧
       (monRun monInit [MonAct.requestStart id t0, MonAct.startupCheck id]).showStartupModal
         = true) := by
  intro id t0 t1 error _ht _hthr herr
  constructor
  · unfold singleRequestTrace
    split
    all_goals
      intro s hs
      simp [monStates, List.scanl, monStep, mapSet, mapDelete, herr, monInit] at hs
      rcases hs with rfl | rfl | rfl | rfl | rfl
      all_goals rfl
  · simp [monRun, monStep, mapSet, monInit]

/-- Witness for C9 at a concrete single request. -/
theorem claim_C9_startup_threshold_witness :
    (monRun monInit (singleRequestTrace "r" 0 100 none)).showStartupModal = false ∧
    (monRun monInit [MonAct.requestStart "r" 0, MonAct.startupCheck "r"]).showStartupModal
      = true :=
  ⟨(claim_C9_startup_threshold "r" 0 100 none (by decide) (by decide) rfl).1
      (monRun monInit (singleRequestTrace "r" 0 100 none)) (by decide),
   (claim_C9_startup_threshold "r" 0 100 none (by decide) (by decide) rfl).2⟩

/-- C10: on a failing request the interceptor calls onRequestEnd twice —
once with the error in catchError and once without it in finalize.  After
a status-0 failure with no other request pending, the first call sets the
startup-modal flag to true, the second (error-less) call leaves it true
but schedules the 500 ms debounce, and the debounce callback then sets it
back to false: the flag does not stay true. -/
theorem claim_C10_double_end_resets_flag :
    ∀ (id : String) (t : Nat) (m n : Option String),
      (monStates { showStartupModal := false, pendingRequests := [(id, t)] }
          (interceptorFailureEnds id { status := some 0, message := m, name := n } ++
            [MonAct.debounceHide])).map (fun s => s.showStartupModal) =
        [false, true, true, false] := by
  intro id t m n
  simp [monStates, interceptorFailureEnds, List.scanl, monStep, isStartupError, mapDelete]

/-! ## C7: sanitizer pattern detection -/

theorem scanPositions_isPre (pat b : List Char) :
    ∀ (a : List Char) (prev : Option Char),
      scanPositions (fun _ r => isPre pat r) prev (a ++ (pat ++ b)) = true := by
  intro a
  induction a with
  | nil =>
    intro prev
    simp only [List.nil_append]
    cases hpb : pat ++ b with
    | nil =>
      have h1 : isPre pat [] = true := hpb ▸ isPre_append_self pat b
      simpa [scanPositions] using h1
    | cons c cs =>
      have h1 : isPre pat (c :: cs) = true := hpb ▸ isPre_append_self pat b
      simp [scanPositions, h1]
  | cons x a' ih =>
    intro prev
    simp only [List.cons_append, scanPositions]
    simp [ih (some x)]

theorem scanPositions_imp_hasSub {p : Option Char → List Char → Bool} {tok : List Char}
    (hp : ∀ pr r, p pr r = true → isPre tok r = true) :
    ∀ (l : List Char) (prev : Option Char),
      scanPositions p prev l = true → hasSub tok l = true := by
  intro l
  induction l with
  | nil =>
    intro prev h
    exact hasSub_of_isPre (hp _ _ h)
  | cons c cs ih =>
    intro prev h
    simp only [scanPositions, Bool.or_eq_true] at h
    rcases h with h | h
    · exact hasSub_of_isPre (hp _ _ h)
    · exact hasSub_cons c (ih _ h)

theorem jsWs_toLower_eq {c : Char} (h : jsWs c = true) : Char.toLower c = c := by
  have hm : c ∈ jsWsChars := by simpa [jsWs] using h
  fin_cases hm
  all_goals decide

theorem lowerChars_all_jsWs {input : String} (h : input.data.all jsWs = true) :
    (lowerChars input).all jsWs = true := by
  unfold lowerChars
  rw [List.all_map]
  refine List.all_eq_true.mpr ?_
  intro c hc
  have hws := List.all_eq_true.mp h c hc
  simpa [Function.comp, jsWs_toLower_eq hws] using hws

theorem all_jsWs_false_of_mem {l : List Char} {c : Char} (hc : c ∈ l)
    (hw : jsWs c = false) : l.all jsWs = false := by
  cases hall : l.all jsWs with
  | false => rfl
  | true => exact absurd (List.all_eq_true.mp hall c hc) (by simp [hw])

theorem beq_empty_false_of_data_ne {input : String} (h : input.data ≠ []) :
    (input == "") = false := by
  cases hbe : input == "" with
  | false => rfl
  | true =>
    have he : input = "" := by simpa using hbe
    subst he
    exact absurd rfl h

theorem sanitize_cond_false_of_mem_nonws {input : String} {c : Char}
    (hc : c ∈ input.data) (hw : jsWs c = false) :
    (input == "" || input.data.all jsWs) = false := by
  have h1 : input.data.all jsWs = false := all_jsWs_false_of_mem hc hw
  have h2 : (input == "") = false := by
    refine beq_empty_false_of_data_ne ?_
    intro hd
    rw [hd] at hc
    cases hc
  simp [h1, h2]

theorem sanitizeInput_error_true_of_any (dom : DomOracle) (input : String)
    (hcond : (input == "" || input.data.all jsWs) = false)
    (hany : dangerousPatterns.any (fun pat =>
        pat input ||
          (!(dom.bodyTextContent input == "") && pat (dom.bodyTextContent input))) = true) :
    (sanitizeInput dom input).error = true := by
  simp [sanitizeInput, hcond, hany]

theorem testLower_token_of_hasSub (tok : String) {input : String}
    (hlow : tok.data.map Char.toLower = tok.data)
    (h : hasSub tok.data input.data = true) :
    testLower (fun _ r => isPre tok.data r) input = true := by
  obtain ⟨a, b, hab⟩ := hasSub_exists h
  unfold testLower lowerChars
  rw [hab, List.map_append, List.map_append, hlow, List.append_assoc]
  exact scanPositions_isPre _ _ _ _

/-- C7: sanitizeInput flags every string containing a literal script tag,
a javascript: scheme, or a match of the call-like eval pattern, and does
not flag a string for which the DOM parse yields no element node and no
dangerous pattern matches the raw string or its extracted text content. -/
theorem claim_C7_sanitizer_flags :
    ∀ (dom : DomOracle) (input : String),
      (containsSub input "<script>" = true → (sanitizeInput dom input).error = true) ∧
      (containsSub input "javascript:" = true → (sanitizeInput dom input).error = true) ∧
      (testLower (fun _ r => callAt "eval".data r) input = true →
        (sanitizeInput dom input).error = true) ∧
      (dom.hasHtmlElementNodes input = false →
       (∀ pat ∈ dangerousPatterns, pat input = false) →
       (∀ pat ∈ dangerousPatterns, pat (dom.bodyTextContent input) = false) →
       (sanitizeInput dom input).error = false) := by
  intro dom input
  refine ⟨?_, ?_, ?_, ?_⟩
  · intro h
    unfold containsSub at h
    obtain ⟨a, b, hab⟩ := hasSub_exists h
    have hmemc : '<' ∈ input.data := by
      rw [hab]
      refine List.mem_append.mpr (Or.inl (List.mem_append.mpr (Or.inr ?_)))
      decide
    have hcond := sanitize_cond_false_of_mem_nonws hmemc (by decide)
    have htest := testLower_token_of_hasSub "<script>" (by decide) h
    exact sanitizeInput_error_true_of_any dom input hcond
      (List.any_eq_true.mpr ⟨_, List.mem_cons_self _ _, by simp [htest]⟩)
  · intro h
    unfold containsSub at h
    obtain ⟨a, b, hab⟩ := hasSub_exists h
    have hmemc : 'j' ∈ input.data := by
      rw [hab]
      refine List.mem_append.mpr (Or.inl (List.mem_append.mpr (Or.inr ?_)))
      decide
    have hcond := sanitize_cond_false_of_mem_nonws hmemc (by decide)
    have htest := testLower_token_of_hasSub "javascript:" (by decide) h
    exact sanitizeInput_error_true_of_any dom input hcond
      (List.any_eq_true.mpr
        ⟨_, List.mem_cons_of_mem _ (List.mem_cons_of_mem _ (List.mem_cons_self _ _)),
         by simp [htest]⟩)
  · intro h
    have hsub : hasSub "eval".data (lowerChars input) = true := by
      refine scanPositions_imp_hasSub ?_ (lowerChars input) none h
      intro pr r hc
      simp only [callAt, Bool.and_eq_true] at hc
      exact hc.1
    obtain ⟨a, b, hab⟩ := hasSub_exists hsub
    have hmem_e : 'e' ∈ lowerChars input := by
      rw [hab]
      refine List.mem_append.mpr (Or.inl (List.mem_append.mpr (Or.inr ?_)))
      decide
    have hlowall : (lowerChars input).all jsWs = false :=
      all_jsWs_false_of_mem hmem_e (by decide)
    have hall : input.data.all jsWs = false := by
      cases hD : input.data.all jsWs with
      | false => rfl
      | true => exact absurd (lowerChars_all_jsWs hD) (by simp [hlowall])
    have hne : (input == "") = false := by
      refine beq_empty_false_of_data_ne ?_
      intro hdata
      have hl : lowerChars input = [] := by simp [lowerChars, hdata]
      rw [hl] at hmem_e
      cases hmem_e
    have hcond : (input == "" || input.data.all jsWs) = false := by simp [hne, hall]
    exact sanitizeInput_error_true_of_any dom input hcond
      (List.any_eq_true.mpr
        ⟨_, List.mem_cons_of_mem _ (List.mem_cons_of_mem _ (List.mem_cons_of_mem _
              (List.mem_cons_of_mem _ (List.mem_cons_of_mem _ (List.mem_cons_self _ _))))),
         by simp [h]⟩)
  · intro hel hraw htc
    unfold sanitizeInput
    split
    · rfl
    · simp only [hel, Bool.false_or]
      refine List.any_eq_false.mpr ?_
      intro pat hmem
      simp [hraw pat hmem, htc pat hmem]

/-- Witness for C7 at concrete inputs with a trivial DOM oracle. -/
theorem claim_C7_sanitizer_flags_witness :
    (sanitizeInput ⟨fun _ => false, fun _ => ""⟩ "<script>alert(1)</script>").error = true ∧
    (sanitizeInput ⟨fun _ => false, fun _ => ""⟩ "javascript:alert(1)").error = true ∧
    (sanitizeInput ⟨fun _ => false, fun _ => ""⟩ "eval(1)").error = true ∧
    (sanitizeInput ⟨fun _ => false, fun _ => ""⟩ "hello world").error = false :=
  ⟨(claim_C7_sanitizer_flags ⟨fun _ => false, fun _ => ""⟩ "<script>alert(1)</script>").1
      (by decide),
   (claim_C7_sanitizer_flags ⟨fun _ => false, fun _ => ""⟩ "javascript:alert(1)").2.1
      (by decide),
   (claim_C7_sanitizer_flags ⟨fun _ => false, fun _ => ""⟩ "eval(1)").2.2.1 (by decide),
   (claim_C7_sanitizer_flags ⟨fun _ => false, fun _ => ""⟩ "hello world").2.2.2 rfl
      (by decide) (by decide)⟩

/-! ## C2: URL placeholder resolution -/

theorem setParams_fold_fst (qp : List (String × String)) :
    ∀ (segs : List String) (ps : List (String × String)),
      (qp.foldl setParamsStep (segs, ps)).1 = segs.map (resolveSeg qp) := by
  induction qp with
  | nil =>
    intro segs ps
    show segs = segs.map (resolveSeg [])
    rw [show resolveSeg [] = fun seg => seg from rfl, List.map_id']
  | cons kv qp' ih =>
    intro segs ps
    simp only [List.foldl_cons]
    rw [show setParamsStep (segs, ps) kv =
        (segs.map (fun ustr => replaceFirst ustr (":" ++ kv.1) kv.2),
         if segs.any (fun ustr => ustr == ":" ++ kv.1) then eraseParam ps kv.1 else ps)
      from rfl]
    rw [ih, List.map_map]
    refine List.map_congr_left ?_
    intro s _
    rfl

theorem resolveSeg_token_skip (name : String) :
    ∀ (P : List (String × String)),
      (∀ kv ∈ P, containsSub (":" ++ name) (":" ++ kv.1) = false) →
      resolveSeg P (":" ++ name) = ":" ++ name := by
  intro P
  induction P with
  | nil => intro _; rfl
  | cons kv P' ih =>
    intro h
    have h1 := h kv (List.mem_cons_self _ _)
    unfold resolveSeg
    simp only [List.foldl_cons]
    rw [show replaceFirst (":" ++ name) (":" ++ kv.1) kv.2 = ":" ++ name from
        replaceFirst_of_not_contains h1]
    exact ih (fun x hx => h x (List.mem_cons_of_mem _ hx))

theorem resolveSeg_no_colon {v : String} (hv : v.data.all (fun c => c != ':') = true) :
    ∀ (S : List (String × String)), resolveSeg S v = v := by
  intro S
  induction S with
  | nil => rfl
  | cons kv S' ih =>
    unfold resolveSeg
    simp only [List.foldl_cons]
    rw [show replaceFirst v (":" ++ kv.1) kv.2 = v from replaceFirst_no_colon hv]
    exact ih

theorem resolveSeg_token_value {name v : String} {P S : List (String × String)}
    (hP : ∀ kv ∈ P, containsSub (":" ++ name) (":" ++ kv.1) = false)
    (hv : v.data.all (fun c => c != ':') = true)
    (hd : v.data.all (fun c => c != '$') = true) :
    resolveSeg (P ++ (name, v) :: S) (":" ++ name) = v := by
  have h1 := resolveSeg_token_skip name P hP
  have h3 := resolveSeg_no_colon hv S
  unfold resolveSeg at h1 h3 ⊢
  rw [List.foldl_append, h1, List.foldl_cons, replaceFirst_token_self name v hd]
  exact h3

theorem eraseParam_all_ne (ps : List (String × String)) (k : String) :
    (eraseParam ps k).all (fun p => p.1 != k) = true := by
  refine List.all_eq_true.mpr ?_
  intro p hp
  exact (List.mem_filter.mp hp).2

theorem setParams_fold_snd_absent (name : String) :
    ∀ (S : List (String × String)) (segs : List String) (ps : List (String × String)),
      ps.all (fun p => p.1 != name) = true →
      ((S.foldl setParamsStep (segs, ps)).2).all (fun p => p.1 != name) = true := by
  intro S
  induction S with
  | nil =>
    intro segs ps h
    simpa using h
  | cons kv S' ih =>
    intro segs ps h
    simp only [List.foldl_cons]
    refine ih _ _ ?_
    show ((setParamsStep (segs, ps) kv).2).all (fun p => p.1 != name) = true
    rw [show (setParamsStep (segs, ps) kv).2 =
        (if segs.any (fun ustr => ustr == ":" ++ kv.1) then eraseParam ps kv.1 else ps)
      from rfl]
    split
    · refine List.all_eq_true.mpr ?_
      intro p hp
      exact List.all_eq_true.mp h p (List.mem_of_mem_filter hp)
    · exact h

theorem setParams_step_deletes {segs : List String} {ps : List (String × String)}
    (name v : String) (hmem : (":" ++ name) ∈ segs) :
    (setParamsStep (segs, ps) (name, v)).2 = eraseParam ps name := by
  have hany : segs.any (fun ustr => ustr == ":" ++ name) = true :=
    List.any_eq_true.mpr ⟨":" ++ name, hmem, by simp⟩
  simp [setParamsStep, hany]

/-- C2 counterexample: for the descriptor with path users/:id and query
parameters ordered (i ↦ x, id ↦ 5), the path contains the placeholder :id
matching the parameter id, yet the earlier-iterated key i partially
rewrites the segment :id to xd (JavaScript replace substitutes the
substring :i without the whole-segment equality check that triggers
deletion), so the produced URL users/xd does not contain the value 5 and
the parameter id is still transmitted — the claim fails as stated. -/
theorem claim_C2_counterexample :
    ((":" ++ "id") ∈ splitSlash "users/:id") ∧
    (("id", "5") ∈ [("i", "x"), ("id", "5")]) ∧
    setParamsInUrl "users/:id" [("i", "x"), ("id", "5")] =
      ("users/xd", [("i", "x"), ("id", "5")]) ∧
    containsSub (setParamsInUrl "users/:id" [("i", "x"), ("id", "5")]).1 "5" = false :=
  ⟨by decide, by decide, by decide, by decide⟩

/-- C2 (amended): for every request descriptor whose path contains a
placeholder segment :name matching a query-parameter key, provided that
every occurrence of a parameter token :k inside a path segment is the
entire segment (no key collides with part of another placeholder) and no
parameter value contains a colon or a dollar sign (a dollar would be
re-expanded by the replacement-string substitution of JavaScript
String.replace), the URL produced before transmission contains the
parameter value substituted for the placeholder segment, and that
parameter is removed from the query-parameter set actually
transmitted. -/
theorem claim_C2_amended_placeholder_resolution :
    ∀ (apiUrl suffixStr : String) (useSuffix : Bool) (endpoint name v : String)
      (qp : List (String × String)),
      (name, v) ∈ qp →
      (":" ++ name) ∈ splitSlash endpoint →
      (qp.map Prod.fst).Nodup →
      (∀ kv ∈ qp, kv.2.data.all (fun c => c != ':') = true) →
      (∀ kv ∈ qp, kv.2.data.all (fun c => c != '$') = true) →
      (∀ kv ∈ qp, ∀ seg ∈ splitSlash endpoint,
        containsSub seg (":" ++ kv.1) = true → seg = ":" ++ kv.1) →
      (v ∈ (setParamsInUrlCore endpoint qp).1 ∧
       containsSub (getRequestUrlAndParams apiUrl suffixStr useSuffix endpoint qp).1 v
         = true ∧
       ((getRequestUrlAndParams apiUrl suffixStr useSuffix endpoint qp).2).all
         (fun p => p.1 != name) = true) := by
  intro apiUrl suffixStr useSuffix endpoint name v qp hmem hseg hnodup hvals hdollars hwhole
  obtain ⟨P, S, rfl⟩ := List.append_of_mem hmem
  have hmap : (P.map Prod.fst ++ name :: S.map Prod.fst).Nodup := by
    simpa using hnodup
  obtain ⟨-, -, hdisj⟩ := List.nodup_append.mp hmap
  have hPn : ∀ kv ∈ P, kv.1 ≠ name := by
    intro kv hkv he
    exact hdisj (List.mem_map_of_mem Prod.fst hkv)
      (he ▸ List.mem_cons_self name (S.map Prod.fst))
  have hPskip : ∀ kv ∈ P, containsSub (":" ++ name) (":" ++ kv.1) = false := by
    intro kv hkv
    cases hcc : containsSub (":" ++ name) (":" ++ kv.1) with
    | false => rfl
    | true =>
      have heq := hwhole kv (List.mem_append.mpr (Or.inl hkv)) (":" ++ name) hseg hcc
      exact absurd (token_inj heq).symm (hPn kv hkv)
  have hv : v.data.all (fun c => c != ':') = true :=
    hvals (name, v) (List.mem_append.mpr (Or.inr (List.mem_cons_self _ _)))
  have hvd : v.data.all (fun c => c != '$') = true :=
    hdollars (name, v) (List.mem_append.mpr (Or.inr (List.mem_cons_self _ _)))
  have hres : resolveSeg (P ++ (name, v) :: S) (":" ++ name) = v :=
    resolveSeg_token_value hPskip hv hvd
  have hcoremap : (setParamsInUrlCore endpoint (P ++ (name, v) :: S)).1 =
      (splitSlash endpoint).map (resolveSeg (P ++ (name, v) :: S)) :=
    setParams_fold_fst _ _ _
  have hvmem : v ∈ (setParamsInUrlCore endpoint (P ++ (name, v) :: S)).1 := by
    rw [hcoremap]
    have h0 := List.mem_map_of_mem (resolveSeg (P ++ (name, v) :: S)) hseg
    rwa [hres] at h0
  refine ⟨hvmem, ?_, ?_⟩
  · have hjoin : containsSub
        (joinSlash (setParamsInUrlCore endpoint (P ++ (name, v) :: S)).1) v = true :=
      joinSlash_contains_of_mem hvmem
    show containsSub
        ((apiUrl ++ (if useSuffix then suffixStr else "")) ++
          joinSlash (setParamsInUrlCore endpoint (P ++ (name, v) :: S)).1) v = true
    exact containsSub_append_left _ hjoin
  · have hcore : setParamsInUrlCore endpoint (P ++ (name, v) :: S) =
        S.foldl setParamsStep
          (setParamsStep
            (P.foldl setParamsStep (splitSlash endpoint, P ++ (name, v) :: S))
            (name, v)) := by
      unfold setParamsInUrlCore
      rw [List.foldl_append, List.foldl_cons]
    have hA1 : (P.foldl setParamsStep (splitSlash endpoint, P ++ (name, v) :: S)).1 =
        (splitSlash endpoint).map (resolveSeg P) :=
      setParams_fold_fst _ _ _
    have htokA : (":" ++ name) ∈
        (P.foldl setParamsStep (splitSlash endpoint, P ++ (name, v) :: S)).1 := by
      rw [hA1]
      have h0 := List.mem_map_of_mem (resolveSeg P) hseg
      rwa [resolveSeg_token_skip name P hPskip] at h0
    show ((setParamsInUrlCore endpoint (P ++ (name, v) :: S)).2).all
        (fun p => p.1 != name) = true
    rw [hcore]
    refine setParams_fold_snd_absent name S _ _ ?_
    have hany : ((P.foldl setParamsStep (splitSlash endpoint, P ++ (name, v) :: S)).1.any
        (fun ustr => ustr == ":" ++ (name, v).1)) = true :=
      List.any_eq_true.mpr ⟨":" ++ name, htokA, by simp⟩
    rw [if_pos hany]
    exact eraseParam_all_ne _ name

/-- Witness for C2 (amended) at a concrete descriptor. -/
theorem claim_C2_amended_placeholder_resolution_witness :
    ("5" ∈ (setParamsInUrlCore "users/:id" [("id", "5")]).1) ∧
    containsSub (getRequestUrlAndParams "http://h" "/api" true "users/:id"
        [("id", "5")]).1 "5" = true ∧
    ((getRequestUrlAndParams "http://h" "/api" true "users/:id" [("id", "5")]).2).all
      (fun p => p.1 != "id") = true :=
  claim_C2_amended_placeholder_resolution "http://h" "/api" true "users/:id" "id" "5"
    [("id", "5")] (by decide) (by decide) (by decide) (by decide) (by decide) (by decide)

end Goliath
